import Mathlib

/-!
Verification of the Caltrain station synchronization primitive
(`src/Lab3 - Mutex/caltrain.c`).

The C code guards four integer counters (`waiting`, `seats_available`,
`people_to_sit`, `boarding`) with one mutex and two condition variables.
Every observable state transition of the program is one critical section
executed under the lock.  We embed the program shallowly: each critical
section becomes a pure function on a `Station` record, and the possible
interleavings of one controller thread and any number of passenger
threads become a labelled step relation `Step` on configurations
(station state + controller phase + counts of passenger threads at each
program point).  POSIX condition variables permit spurious wakeups, so a
thread blocked in `pthread_cond_wait` may resume and re-check its
predicate at any moment the lock is free; the step relation therefore
lets a blocked thread proceed exactly when its loop predicate allows it.
-/

/-- The four counter fields of `struct station` (C `int`s, embedded as `Int`).
The mutex and the two condition variables are represented by the atomicity
of the step relation below, not by fields. -/
structure Station where
  waiting : Int
  seats_available : Int
  people_to_sit : Int
  boarding : Int
deriving Repr, DecidableEq

/-- `station_init`: zeroes all counters. -/
def station_init : Station :=
  { waiting := 0, seats_available := 0, people_to_sit := 0, boarding := 0 }

/-- First critical section of `station_load_train(station, count)`, up to the
first test of the wait loop: store `count` into `seats_available` and the C
ternary `(waiting < count) ? waiting : count` into `people_to_sit`
(the `pthread_cond_broadcast(&train_arrived)` has no counter effect). -/
def station_load_train_entry (st : Station) (count : Int) : Station :=
  { st with
    seats_available := count
    people_to_sit := if st.waiting < count then st.waiting else count }

/-- The condition of `station_load_train`'s wait loop:
`while (station->boarding < station->people_to_sit)`. -/
def load_wait_guard (st : Station) : Prop :=
  st.boarding < st.people_to_sit

instance (st : Station) : Decidable (load_wait_guard st) := by
  unfold load_wait_guard; infer_instance

/-- Final critical section of `station_load_train`: the reset performed once
the wait loop exits, just before the unlock and the return. -/
def station_load_train_reset (st : Station) : Station :=
  { st with boarding := 0, seats_available := 0, people_to_sit := 0 }

/-- First action of `station_wait_for_train`: `station->waiting++`. -/
def station_wait_enter (st : Station) : Station :=
  { st with waiting := st.waiting + 1 }

/-- The condition of `station_wait_for_train`'s wait loop:
`while (station->seats_available == 0)`. -/
def wait_loop_guard (st : Station) : Prop :=
  st.seats_available = 0

instance (st : Station) : Decidable (wait_loop_guard st) := by
  unfold wait_loop_guard; infer_instance

/-- Tail of `station_wait_for_train`, executed once the wait loop exits:
`station->seats_available--; station->waiting--;`. -/
def station_wait_claim (st : Station) : Station :=
  { st with
    seats_available := st.seats_available - 1
    waiting := st.waiting - 1 }

/-- `station_on_board`: increment `boarding`; the returned Bool records
whether `pthread_cond_broadcast(&all_boarded)` is issued, i.e. whether the
incremented `boarding` equals `people_to_sit`. -/
def station_on_board (st : Station) : Station × Bool :=
  let st2 := { st with boarding := st.boarding + 1 }
  (st2, decide (st2.boarding = st2.people_to_sit))

/-- Program point of the single controller thread.  `loading w0 count b0 k`
means a `station_load_train(count)` call is in progress, suspended in the
wait loop: `w0` and `b0` are the values of `waiting` and `boarding` at call
time, and `k` is the ghost count of `station_on_board` calls completed since
the call began (the boardings that fall inside this call's window). -/
inductive CtrlPhase where
  | idle : CtrlPhase
  | loading (w0 count b0 : Int) (k : Nat) : CtrlPhase
deriving Repr, DecidableEq

/-- Ghost count of `station_on_board` completions inside the in-progress
`station_load_train` call (0 when no call is in progress). -/
def boardsInWindow : CtrlPhase → Nat
  | .idle => 0
  | .loading _ _ _ k => k

/-- Advance the ghost boarding count when a passenger completes
`station_on_board` while a `station_load_train` call is in progress. -/
def bumpBoards : CtrlPhase → CtrlPhase
  | .idle => .idle
  | .loading w0 c b0 k => .loading w0 c b0 (k + 1)

/-- A global configuration: the shared station, the controller phase, the
number of passenger threads suspended inside `station_wait_for_train`'s wait
loop, and the number that have returned from `station_wait_for_train` but not
yet called `station_on_board`. -/
structure Config where
  st : Station
  ctrl : CtrlPhase
  blocked : Nat
  seated : Nat
deriving Repr, DecidableEq

/-- The configuration right after `station_init`, before any thread runs. -/
def initConfig : Config :=
  { st := station_init, ctrl := .idle, blocked := 0, seated := 0 }

/-- Labels naming which critical section a step executes. -/
inductive Label where
  | enterBlock : Label
  | enterClaim : Label
  | wakeClaim : Label
  | board : Label
  | loadNoWait (count : Int) : Label
  | loadBlock (count : Int) : Label
  | loadReturn : Label
deriving Repr, DecidableEq

/-- One critical section of the caltrain program, as executed by some thread
while holding the lock.  Each constructor is one lock-protected region of the
C source:

* `enterBlock` — a passenger enters `station_wait_for_train`, increments
  `waiting`, finds `seats_available == 0` and suspends in `cond_wait`;
* `enterClaim` — a passenger enters `station_wait_for_train`, finds
  `seats_available != 0`, claims a seat and returns without suspending;
* `wakeClaim` — a suspended passenger resumes from `cond_wait` (broadcast or
  spurious wakeup), finds `seats_available != 0`, claims a seat and returns;
* `board` — a passenger that returned from `station_wait_for_train` runs
  `station_on_board`;
* `loadNoWait` — the controller runs `station_load_train(count)` whose wait
  loop condition is false at the first test: entry, reset and return happen
  in one critical section, the lock is never released in between;
* `loadBlock` — the controller runs the entry of `station_load_train(count)`,
  finds the wait loop condition true and suspends in `cond_wait`;
* `loadReturn` — the suspended controller resumes, finds the loop condition
  false, resets the counters and returns. -/
inductive Step : Label → Config → Config → Prop where
  | enterBlock (c : Config) (h : wait_loop_guard c.st) :
      Step .enterBlock c
        { c with st := station_wait_enter c.st, blocked := c.blocked + 1 }
  | enterClaim (c : Config) (h : ¬ wait_loop_guard c.st) :
      Step .enterClaim c
        { c with st := station_wait_claim (station_wait_enter c.st),
                 seated := c.seated + 1 }
  | wakeClaim (c : Config) (h : ¬ wait_loop_guard c.st) (hb : 0 < c.blocked) :
      Step .wakeClaim c
        { c with st := station_wait_claim c.st,
                 blocked := c.blocked - 1, seated := c.seated + 1 }
  | board (c : Config) (hs : 0 < c.seated) :
      Step .board c
        { c with st := (station_on_board c.st).1,
                 ctrl := bumpBoards c.ctrl, seated := c.seated - 1 }
  | loadNoWait (c : Config) (count : Int) (hc : c.ctrl = .idle)
      (h : ¬ load_wait_guard (station_load_train_entry c.st count)) :
      Step (.loadNoWait count) c
        { c with st := station_load_train_reset
                         (station_load_train_entry c.st count) }
  | loadBlock (c : Config) (count : Int) (hc : c.ctrl = .idle)
      (h : load_wait_guard (station_load_train_entry c.st count)) :
      Step (.loadBlock count) c
        { c with st := station_load_train_entry c.st count,
                 ctrl := .loading c.st.waiting count c.st.boarding 0 }
  | loadReturn (c : Config) (w0 cnt b0 : Int) (k : Nat)
      (hc : c.ctrl = .loading w0 cnt b0 k)
      (h : ¬ load_wait_guard c.st) :
      Step .loadReturn c
        { c with st := station_load_train_reset c.st, ctrl := .idle }

/-- Some thread executes some critical section. -/
def StepAny (c c2 : Config) : Prop := ∃ l, Step l c c2

/-- Reachability by any interleaving of the four station operations. -/
def Reach : Config → Config → Prop := Relation.ReflTransGen StepAny

/-- `True` for the labels whose `station_load_train` calls pass a
non-negative `count` (passenger labels are unrestricted). -/
def labelNonneg : Label → Prop
  | .loadNoWait n => 0 ≤ n
  | .loadBlock n => 0 ≤ n
  | _ => True

/-- A step in an execution where every `station_load_train` call receives a
non-negative `count`. -/
def StepNN (c c2 : Config) : Prop := ∃ l, Step l c c2 ∧ labelNonneg l

/-- Reachability when every `station_load_train` count is non-negative. -/
def ReachNN : Config → Config → Prop := Relation.ReflTransGen StepNN

/-- The labels of steps taken by passenger threads
(`station_wait_for_train` and `station_on_board` sections). -/
def passengerLabel : Label → Prop
  | .enterBlock => True
  | .enterClaim => True
  | .wakeClaim => True
  | .board => True
  | _ => False

/-- A step by a passenger thread: what can happen between a
`station_load_train` return and the next `station_load_train` call. -/
def PassengerStep (c c2 : Config) : Prop := ∃ l, Step l c c2 ∧ passengerLabel l

/-- Transport a step along an equality of target configurations. -/
lemma Step.cast {l : Label} {a b b2 : Config} (h : Step l a b) (he : b = b2) :
    Step l a b2 := he ▸ h

/-!
Concrete execution trace 1 (one passenger waiting, a train with 2 seats,
and a late passenger who claims the leftover seat).  All steps below are
genuine POSIX behaviors of the C program: every wakeup used is justified
by a broadcast that has occurred, and lock-acquisition order among woken
threads is unconstrained.
-/

def t1 : Config := ⟨⟨1, 0, 0, 0⟩, .idle, 1, 0⟩
def t2 : Config := ⟨⟨1, 2, 1, 0⟩, .loading 1 2 0 0, 1, 0⟩
def t3 : Config := ⟨⟨0, 1, 1, 0⟩, .loading 1 2 0 0, 0, 1⟩
def t4 : Config := ⟨⟨0, 1, 1, 1⟩, .loading 1 2 0 1, 0, 0⟩
def t5 : Config := ⟨⟨0, 0, 1, 1⟩, .loading 1 2 0 1, 0, 1⟩
def t6 : Config := ⟨⟨0, 0, 0, 0⟩, .idle, 0, 1⟩
def t7 : Config := ⟨⟨0, 0, 0, 1⟩, .idle, 0, 0⟩

lemma step_t01 : Step .enterBlock initConfig t1 :=
  Step.cast (Step.enterBlock initConfig (by decide)) (by decide)

lemma step_t12 : Step (.loadBlock 2) t1 t2 :=
  Step.cast (Step.loadBlock t1 2 (by decide) (by decide)) (by decide)

lemma step_t23 : Step .wakeClaim t2 t3 :=
  Step.cast (Step.wakeClaim t2 (by decide) (by decide)) (by decide)

lemma step_t34 : Step .board t3 t4 :=
  Step.cast (Step.board t3 (by decide)) (by decide)

lemma step_t45 : Step .enterClaim t4 t5 :=
  Step.cast (Step.enterClaim t4 (by decide)) (by decide)

lemma step_t56 : Step .loadReturn t5 t6 :=
  Step.cast (Step.loadReturn t5 1 2 0 1 (by decide) (by decide)) (by decide)

lemma step_t67 : Step .board t6 t7 :=
  Step.cast (Step.board t6 (by decide)) (by decide)

lemma reach_t5 : Reach initConfig t5 :=
  Relation.ReflTransGen.tail
    (Relation.ReflTransGen.tail
      (Relation.ReflTransGen.tail
        (Relation.ReflTransGen.tail
          (Relation.ReflTransGen.tail Relation.ReflTransGen.refl
            ⟨_, step_t01⟩)
          ⟨_, step_t12⟩)
        ⟨_, step_t23⟩)
      ⟨_, step_t34⟩)
    ⟨_, step_t45⟩

lemma reach_t7 : Reach initConfig t7 :=
  Relation.ReflTransGen.tail
    (Relation.ReflTransGen.tail reach_t5 ⟨_, step_t56⟩)
    ⟨_, step_t67⟩

/-!
Concrete execution trace 2 (two passengers waiting, a train with 3 seats;
both counted passengers board, then a late passenger claims the third seat
and boards before the controller reacquires the lock).
-/

def d1 : Config := ⟨⟨1, 0, 0, 0⟩, .idle, 1, 0⟩
def d2 : Config := ⟨⟨2, 0, 0, 0⟩, .idle, 2, 0⟩
def d3 : Config := ⟨⟨2, 3, 2, 0⟩, .loading 2 3 0 0, 2, 0⟩
def d4 : Config := ⟨⟨1, 2, 2, 0⟩, .loading 2 3 0 0, 1, 1⟩
def d5 : Config := ⟨⟨0, 1, 2, 0⟩, .loading 2 3 0 0, 0, 2⟩
def d6 : Config := ⟨⟨0, 1, 2, 1⟩, .loading 2 3 0 1, 0, 1⟩
def d7 : Config := ⟨⟨0, 1, 2, 2⟩, .loading 2 3 0 2, 0, 0⟩
def d8 : Config := ⟨⟨0, 0, 2, 2⟩, .loading 2 3 0 2, 0, 1⟩
def d9 : Config := ⟨⟨0, 0, 2, 3⟩, .loading 2 3 0 3, 0, 0⟩
def d10 : Config := ⟨⟨0, 0, 0, 0⟩, .idle, 0, 0⟩

lemma step_d01 : Step .enterBlock initConfig d1 :=
  Step.cast (Step.enterBlock initConfig (by decide)) (by decide)

lemma step_d12 : Step .enterBlock d1 d2 :=
  Step.cast (Step.enterBlock d1 (by decide)) (by decide)

lemma step_d23 : Step (.loadBlock 3) d2 d3 :=
  Step.cast (Step.loadBlock d2 3 (by decide) (by decide)) (by decide)

lemma step_d34 : Step .wakeClaim d3 d4 :=
  Step.cast (Step.wakeClaim d3 (by decide) (by decide)) (by decide)

lemma step_d45 : Step .wakeClaim d4 d5 :=
  Step.cast (Step.wakeClaim d4 (by decide) (by decide)) (by decide)

lemma step_d56 : Step .board d5 d6 :=
  Step.cast (Step.board d5 (by decide)) (by decide)

lemma step_d67 : Step .board d6 d7 :=
  Step.cast (Step.board d6 (by decide)) (by decide)

lemma step_d78 : Step .enterClaim d7 d8 :=
  Step.cast (Step.enterClaim d7 (by decide)) (by decide)

lemma step_d89 : Step .board d8 d9 :=
  Step.cast (Step.board d8 (by decide)) (by decide)

lemma step_d910 : Step .loadReturn d9 d10 :=
  Step.cast (Step.loadReturn d9 2 3 0 3 (by decide) (by decide)) (by decide)

lemma reach_d9 : Reach initConfig d9 :=
  Relation.ReflTransGen.tail
    (Relation.ReflTransGen.tail
      (Relation.ReflTransGen.tail
        (Relation.ReflTransGen.tail
          (Relation.ReflTransGen.tail
            (Relation.ReflTransGen.tail
              (Relation.ReflTransGen.tail
                (Relation.ReflTransGen.tail
                  (Relation.ReflTransGen.tail Relation.ReflTransGen.refl
                    ⟨_, step_d01⟩)
                  ⟨_, step_d12⟩)
                ⟨_, step_d23⟩)
              ⟨_, step_d34⟩)
            ⟨_, step_d45⟩)
          ⟨_, step_d56⟩)
        ⟨_, step_d67⟩)
      ⟨_, step_d78⟩)
    ⟨_, step_d89⟩


/-!
Invariants, proved by induction along the step relation.  In each case
analysis the configuration before the step is named `a`; the record updates
in the step targets reduce definitionally, so most cases are `exact`/`show`.
-/

lemma boarding_nonneg_step {a b : Config} (h : StepAny a b)
    (ha : 0 ≤ a.st.boarding) : 0 ≤ b.st.boarding := by
  obtain ⟨l, hs⟩ := h
  cases hs with
  | enterBlock _ h => exact ha
  | enterClaim _ h => exact ha
  | wakeClaim _ h hb => exact ha
  | board _ hsSeated =>
      show 0 ≤ (station_on_board a.st).1.boarding
      have e : (station_on_board a.st).1.boarding = a.st.boarding + 1 := rfl
      omega
  | loadNoWait _ count hc h => show (0:Int) ≤ 0; omega
  | loadBlock _ count hc h => exact ha
  | loadReturn _ w0 cnt b0 k hc h => show (0:Int) ≤ 0; omega

lemma reach_boarding_nonneg {c : Config} (h : Reach initConfig c) :
    0 ≤ c.st.boarding := by
  induction h with
  | refl => decide
  | tail hab hbc ih => exact boarding_nonneg_step hbc ih

/-- The controller-window invariant: while a `station_load_train` call is in
progress, `boarding` equals its call-time value plus the ghost count of
`station_on_board` completions inside the window, and `people_to_sit` is
still the minimum of call-time `waiting` and `count`, fixed at entry. -/
def WindowInv (c : Config) : Prop :=
  ∀ w0 cnt b0 : Int, ∀ k : Nat, c.ctrl = .loading w0 cnt b0 k →
    c.st.boarding = b0 + (k : Int) ∧ c.st.people_to_sit = min w0 cnt

lemma windowInv_step {a b : Config} (h : StepAny a b)
    (ha : WindowInv a) : WindowInv b := by
  obtain ⟨l, hs⟩ := h
  cases hs with
  | enterBlock _ h =>
      intro w0 cnt b0 k hc
      exact ha w0 cnt b0 k hc
  | enterClaim _ h =>
      intro w0 cnt b0 k hc
      exact ha w0 cnt b0 k hc
  | wakeClaim _ h hb =>
      intro w0 cnt b0 k hc
      exact ha w0 cnt b0 k hc
  | board _ hsSeated =>
      intro w0 cnt b0 k hc
      have hc2 : bumpBoards a.ctrl = CtrlPhase.loading w0 cnt b0 k := hc
      cases hctrl : a.ctrl with
      | idle => rw [hctrl] at hc2; simp [bumpBoards] at hc2
      | loading w1 c1 b1 k1 =>
          rw [hctrl] at hc2
          simp only [bumpBoards, CtrlPhase.loading.injEq] at hc2
          obtain ⟨hw, hcnt, hb, hk⟩ := hc2
          subst hw; subst hcnt; subst hb; subst hk
          have hprev := ha w1 c1 b1 k1 hctrl
          have hb1 := hprev.1
          constructor
          · show (station_on_board a.st).1.boarding = b1 + ((k1 + 1 : Nat) : Int)
            have e : (station_on_board a.st).1.boarding = a.st.boarding + 1 := rfl
            omega
          · show (station_on_board a.st).1.people_to_sit = min w1 c1
            have e : (station_on_board a.st).1.people_to_sit
                = a.st.people_to_sit := rfl
            rw [e]; exact hprev.2
  | loadNoWait _ count hc0 h =>
      intro w0 cnt b0 k hc
      have hc2 : a.ctrl = CtrlPhase.loading w0 cnt b0 k := hc
      rw [hc0] at hc2
      simp at hc2
  | loadBlock _ count hc0 h =>
      intro w0 cnt b0 k hc
      have hc2 : CtrlPhase.loading a.st.waiting count a.st.boarding 0 =
          CtrlPhase.loading w0 cnt b0 k := hc
      simp only [CtrlPhase.loading.injEq] at hc2
      obtain ⟨hw, hcnt, hb, hk⟩ := hc2
      subst hw; subst hcnt; subst hb; subst hk
      constructor
      · show (station_load_train_entry a.st count).boarding
            = a.st.boarding + ((0 : Nat) : Int)
        have e : (station_load_train_entry a.st count).boarding
            = a.st.boarding := rfl
        omega
      · show (station_load_train_entry a.st count).people_to_sit
            = min a.st.waiting count
        have e : (station_load_train_entry a.st count).people_to_sit
            = if a.st.waiting < count then a.st.waiting else count := rfl
        rw [e]
        split <;> omega
  | loadReturn _ w1 cnt1 b1 k1 hc0 h =>
      intro w0 cnt b0 k hc
      have hc2 : CtrlPhase.idle = CtrlPhase.loading w0 cnt b0 k := hc
      simp at hc2

lemma reach_windowInv {c : Config} (h : Reach initConfig c) : WindowInv c := by
  induction h with
  | refl =>
      intro w0 cnt b0 k hc
      have hc2 : CtrlPhase.idle = CtrlPhase.loading w0 cnt b0 k := hc
      simp at hc2
  | tail hab hbc ih => exact windowInv_step hbc ih

lemma seats_nonneg_step {a b : Config} (h : StepNN a b)
    (ha : 0 ≤ a.st.seats_available) : 0 ≤ b.st.seats_available := by
  obtain ⟨l, hs, hl⟩ := h
  cases hs with
  | enterBlock _ h => exact ha
  | enterClaim _ h =>
      have hne : ¬ a.st.seats_available = 0 := h
      show 0 ≤ (station_wait_claim (station_wait_enter a.st)).seats_available
      have e : (station_wait_claim (station_wait_enter a.st)).seats_available
          = a.st.seats_available - 1 := rfl
      omega
  | wakeClaim _ h hb =>
      have hne : ¬ a.st.seats_available = 0 := h
      show 0 ≤ (station_wait_claim a.st).seats_available
      have e : (station_wait_claim a.st).seats_available
          = a.st.seats_available - 1 := rfl
      omega
  | board _ hsSeated => exact ha
  | loadNoWait _ count hc h => show (0:Int) ≤ 0; omega
  | loadBlock _ count hc h =>
      have hcount : (0:Int) ≤ count := hl
      show 0 ≤ (station_load_train_entry a.st count).seats_available
      have e : (station_load_train_entry a.st count).seats_available
          = count := rfl
      omega
  | loadReturn _ w0 cnt b0 k hc h => show (0:Int) ≤ 0; omega

lemma reachNN_seats_nonneg {c : Config} (h : ReachNN initConfig c) :
    0 ≤ c.st.seats_available := by
  induction h with
  | refl => decide
  | tail hab hbc ih => exact seats_nonneg_step hbc ih

lemma reach_t2 : Reach initConfig t2 :=
  Relation.ReflTransGen.tail
    (Relation.ReflTransGen.tail Relation.ReflTransGen.refl ⟨_, step_t01⟩)
    ⟨_, step_t12⟩

lemma reachNN_t2 : ReachNN initConfig t2 :=
  Relation.ReflTransGen.tail
    (Relation.ReflTransGen.tail Relation.ReflTransGen.refl
      ⟨Label.enterBlock, step_t01, trivial⟩)
    ⟨Label.loadBlock 2, step_t12, (by decide : (0:Int) ≤ 2)⟩

lemma zeroSeats_passenger_rtg {c d : Config}
    (h : Relation.ReflTransGen PassengerStep c d)
    (hc : c.st.seats_available = 0 ∧ c.st.people_to_sit = 0) :
    d.st.seats_available = 0 ∧ d.st.people_to_sit = 0 := by
  induction h with
  | refl => exact hc
  | tail hab hbc ih =>
      obtain ⟨l, hs, hpl⟩ := hbc
      cases hs with
      | enterBlock _ h => exact ih
      | enterClaim _ h => exact absurd ih.1 h
      | wakeClaim _ h hb => exact absurd ih.1 h
      | board _ hsSeated => exact ih
      | loadNoWait _ count hc2 h => exact hpl.elim
      | loadBlock _ count hc2 h => exact hpl.elim
      | loadReturn _ w0 cnt b0 k hc2 h => exact hpl.elim

/-!
Claim theorems.
-/

/-- Claim C1, counterexample.  The claim says the number of passengers that
complete `station_on_board` between a `station_load_train(count)` call and
its return is exactly `min(waiting-at-call-time, count)`.  In the concrete
execution below (trace 2), a `station_load_train(3)` call starts with 2
passengers waiting (`min = 2`), both board, then a late passenger claims the
leftover third seat and boards before the controller reacquires the lock:
the call returns with 3 boardings in its window, not 2. -/
theorem C1_capacity_exact_cex :
    Reach initConfig d9 ∧ d9.ctrl = CtrlPhase.loading 2 3 0 3 ∧
    Step Label.loadReturn d9 d10 ∧
    boardsInWindow d9.ctrl = 3 ∧ min (2:Int) 3 = 2 ∧ (3:Int) ≠ 2 :=
  ⟨reach_d9, rfl, step_d910, rfl, by decide, by decide⟩

/-- Claim C1, amended.  Between a `station_load_train(count)` call and its
return, at least `min(waiting-at-call-time, count)` passengers complete
`station_on_board`, provided `boarding` was 0 when the call began; more may
complete when `count` exceeds the call-time `waiting`, because late arrivals
can claim leftover seats and board before the controller returns. -/
theorem C1_capacity_amended (cfg cfg2 : Config) (w0 cnt : Int) (k : Nat)
    (hr : Reach initConfig cfg)
    (hc : cfg.ctrl = CtrlPhase.loading w0 cnt 0 k)
    (hs : Step Label.loadReturn cfg cfg2) :
    min w0 cnt ≤ (k : Int) := by
  have hinv := reach_windowInv hr w0 cnt 0 k hc
  have h1 := hinv.1
  have h2 := hinv.2
  cases hs with
  | loadReturn _ w1 cnt1 b1 k1 hc0 hg =>
      have hg2 : ¬ cfg.st.boarding < cfg.st.people_to_sit := hg
      omega

/-- Claim C1, witness for the amended theorem: in trace 1 a
`station_load_train(2)` call that began with 1 passenger waiting and
`boarding = 0` returns with 1 boarding in its window, and `min 1 2 ≤ 1`. -/
theorem C1_capacity_amended_w : min (1:Int) 2 ≤ ((1 : Nat) : Int) :=
  C1_capacity_amended t5 t6 1 2 1 reach_t5 rfl step_t56

/-- Claim C2, counterexample.  The claim says `0 ≤ boarding ≤ people_to_sit`
holds in every lock-free reachable state.  In the reachable state `t7`
(trace 1: a late passenger claimed the leftover seat of a 2-seat train and
ran `station_on_board` after the train departed) `boarding = 1` while
`people_to_sit = 0`, violating the upper bound. -/
theorem C2_boarding_bound_cex :
    Reach initConfig t7 ∧ t7.st.boarding = 1 ∧ t7.st.people_to_sit = 0 ∧
    ¬ t7.st.boarding ≤ t7.st.people_to_sit :=
  ⟨reach_t7, rfl, rfl, by decide⟩

/-- Claim C2, amended.  In every state reachable by any interleaving of the
four station operations (all of which are lock-free quiescent points),
`0 ≤ boarding` holds; the upper bound `boarding ≤ people_to_sit` of the
original claim can be violated by late passengers boarding leftover seats. -/
theorem C2_boarding_nonneg_amended (cfg : Config)
    (hr : Reach initConfig cfg) : 0 ≤ cfg.st.boarding :=
  reach_boarding_nonneg hr

/-- Claim C2, witness: the amended invariant evaluated at the initial
configuration. -/
theorem C2_boarding_nonneg_amended_w : (0:Int) ≤ initConfig.st.boarding :=
  C2_boarding_nonneg_amended initConfig Relation.ReflTransGen.refl

/-- Claim C3, counterexample.  The claim says that after a
`station_load_train` call returns and before the next one begins,
`boarding = 0 ∧ seats_available = 0 ∧ people_to_sit = 0` holds regardless of
intervening `station_wait_for_train` / `station_on_board` calls.  In trace 1
the call returns (step `t5 → t6`) while a late passenger still holds an
unboarded seat claim; that passenger then runs `station_on_board`
(a passenger step, no `station_load_train` call in progress), reaching `t7`
with `boarding = 1 ≠ 0`. -/
theorem C3_reset_between_trains_cex :
    Reach initConfig t5 ∧ Step Label.loadReturn t5 t6 ∧
    Step Label.board t6 t7 ∧ passengerLabel Label.board ∧
    t7.ctrl = CtrlPhase.idle ∧ t7.st.boarding = 1 :=
  ⟨reach_t5, step_t56, step_t67, trivial, rfl, rfl⟩

/-- Claim C3, amended.  Immediately after any `station_load_train` call
returns, `boarding = 0 ∧ seats_available = 0 ∧ people_to_sit = 0`; and
`seats_available = 0 ∧ people_to_sit = 0` persist across any passenger steps
until the next `station_load_train` call begins.  `boarding = 0` does not
persist: a passenger that claimed a seat during the departed train's window
may still run `station_on_board` in between. -/
theorem C3_reset_amended (cfg cfg2 d : Config)
    (hret : Step Label.loadReturn cfg cfg2)
    (hp : Relation.ReflTransGen PassengerStep cfg2 d) :
    cfg2.st.boarding = 0 ∧ cfg2.st.seats_available = 0 ∧
    cfg2.st.people_to_sit = 0 ∧
    d.st.seats_available = 0 ∧ d.st.people_to_sit = 0 := by
  have h0 : cfg2.st.boarding = 0 ∧ cfg2.st.seats_available = 0 ∧
      cfg2.st.people_to_sit = 0 := by
    cases hret with
    | loadReturn _ w0 cnt b0 k hc hg => exact ⟨rfl, rfl, rfl⟩
  have hpersist := zeroSeats_passenger_rtg hp ⟨h0.2.1, h0.2.2⟩
  exact ⟨h0.1, h0.2.1, h0.2.2, hpersist.1, hpersist.2⟩

/-- Claim C3, witness for the amended theorem, on trace 1: the state right
after the `station_load_train(2)` return and the state after the straggler's
`station_on_board` both have `seats_available = 0` and `people_to_sit = 0`. -/
theorem C3_reset_amended_w :
    t6.st.boarding = 0 ∧ t6.st.seats_available = 0 ∧
    t6.st.people_to_sit = 0 ∧
    t7.st.seats_available = 0 ∧ t7.st.people_to_sit = 0 :=
  C3_reset_amended t5 t6 t7 step_t56
    (Relation.ReflTransGen.tail Relation.ReflTransGen.refl
      ⟨Label.board, step_t67, trivial⟩)

/-- Claim C4.  In every state reachable from the initialized station by an
interleaving in which every `station_load_train` count is non-negative,
`seats_available ≥ 0`; moreover a passenger decrements `seats_available`
(steps `wakeClaim` and `enterClaim`) only from a state where it observed
`seats_available > 0` under the lock, so seats never go negative. -/
theorem C4_seats_never_negative (cfg cfg2 : Config)
    (hr : ReachNN initConfig cfg) :
    0 ≤ cfg.st.seats_available ∧
    (Step Label.wakeClaim cfg cfg2 → 0 < cfg.st.seats_available) ∧
    (Step Label.enterClaim cfg cfg2 → 0 < cfg.st.seats_available) := by
  have h0 := reachNN_seats_nonneg hr
  refine ⟨h0, ?_, ?_⟩ <;> intro hs
  · cases hs with
    | wakeClaim _ hg hb =>
        have hne : ¬ cfg.st.seats_available = 0 := hg
        omega
  · cases hs with
    | enterClaim _ hg =>
        have hne : ¬ cfg.st.seats_available = 0 := hg
        omega

/-- Claim C4, witness: the reachable configuration `t2` (a train with 2
seats just announced) has `seats_available ≥ 0`, and the `wakeClaim` step a
blocked passenger takes from it observes `seats_available > 0`. -/
theorem C4_seats_never_negative_w :
    (0:Int) ≤ t2.st.seats_available ∧ 0 < t2.st.seats_available :=
  ⟨(C4_seats_never_negative t2 t3 reachNN_t2).1,
   (C4_seats_never_negative t2 t3 reachNN_t2).2.1 step_t23⟩

/-- Claim C5.  The entry critical section of `station_load_train(st, count)`
sets `seats_available` to `count` and `people_to_sit` to
`min(waiting, count)` computed from the call-time `waiting`; and throughout
any in-progress `station_load_train` call (controller phase
`loading w0 cnt b0 k` in any reachable configuration), `people_to_sit` still
equals `min w0 cnt`, the value fixed at call time — it is never recomputed
while `waiting` changes. -/
theorem C5_quota_snapshot (st : Station) (count : Int) (cfg : Config)
    (w0 cnt b0 : Int) (k : Nat)
    (hr : Reach initConfig cfg)
    (hc : cfg.ctrl = CtrlPhase.loading w0 cnt b0 k) :
    (station_load_train_entry st count).seats_available = count ∧
    (station_load_train_entry st count).people_to_sit = min st.waiting count ∧
    cfg.st.people_to_sit = min w0 cnt := by
  refine ⟨rfl, ?_, (reach_windowInv hr w0 cnt b0 k hc).2⟩
  show (if st.waiting < count then st.waiting else count) = min st.waiting count
  split <;> omega

/-- Claim C5, witness: entry with `waiting = 5`, `count = 3` yields
`seats_available = 3` and `people_to_sit = min 5 3 = 3`; and in the reachable
mid-call configuration `t2` (call-time `waiting = 1`, `count = 2`) the quota
is still `min 1 2 = 1` even though `waiting` has been incremented since. -/
theorem C5_quota_snapshot_w :
    (station_load_train_entry ⟨5, 0, 0, 0⟩ 3).seats_available = 3 ∧
    (station_load_train_entry ⟨5, 0, 0, 0⟩ 3).people_to_sit = min (5:Int) 3 ∧
    t2.st.people_to_sit = min (1:Int) 2 :=
  C5_quota_snapshot ⟨5, 0, 0, 0⟩ 3 t2 1 2 0 0 reach_t2 rfl

/-- Claim C6.  Calling `station_load_train` with `count = 0` in any
reachable state finds the boarding-wait loop condition false at its first
test (so the call returns without suspending), leaves `seats_available = 0`
after its entry (so no passenger blocked in `station_wait_for_train` can
claim a seat: no `wakeClaim` step exists from a zero-seat state), and
returns with `waiting` unchanged. -/
theorem C6_zero_capacity (cfg : Config) (hr : Reach initConfig cfg) :
    ¬ load_wait_guard (station_load_train_entry cfg.st 0) ∧
    (station_load_train_entry cfg.st 0).seats_available = 0 ∧
    (station_load_train_reset (station_load_train_entry cfg.st 0)).waiting
      = cfg.st.waiting ∧
    (∀ e f : Config, e.st.seats_available = 0 →
      ¬ Step Label.wakeClaim e f) := by
  have hb := reach_boarding_nonneg hr
  refine ⟨?_, rfl, rfl, ?_⟩
  · intro hg
    have hg2 : cfg.st.boarding <
        (if cfg.st.waiting < 0 then cfg.st.waiting else 0) := hg
    split at hg2 <;> omega
  · intro e f he hstep
    cases hstep with
    | wakeClaim _ hgu hb2 => exact hgu he

/-- Claim C6, witness: evaluated at the initial configuration,
`station_load_train(0)`'s entry leaves `seats_available = 0` and the call
leaves `waiting` unchanged. -/
theorem C6_zero_capacity_w :
    (station_load_train_entry initConfig.st 0).seats_available = 0 ∧
    (station_load_train_reset
      (station_load_train_entry initConfig.st 0)).waiting
      = initConfig.st.waiting :=
  ⟨(C6_zero_capacity initConfig Relation.ReflTransGen.refl).2.1,
   (C6_zero_capacity initConfig Relation.ReflTransGen.refl).2.2.1⟩

/-- Claim C7.  Calling `station_load_train(count)` with `count ≥ 0` in a
reachable state with `waiting = 0` sets `people_to_sit` to 0 and finds the
all-boarded wait loop condition false at its first test, so the call
returns immediately without suspending. -/
theorem C7_no_passengers (cfg : Config) (count : Int)
    (hr : Reach initConfig cfg) (hw : cfg.st.waiting = 0)
    (hcnt : 0 ≤ count) :
    (station_load_train_entry cfg.st count).people_to_sit = 0 ∧
    ¬ load_wait_guard (station_load_train_entry cfg.st count) := by
  have hb := reach_boarding_nonneg hr
  have e2 : (station_load_train_entry cfg.st count).people_to_sit
      = if cfg.st.waiting < count then cfg.st.waiting else count := rfl
  constructor
  · rw [e2]; split <;> omega
  · intro hg
    have hg2 : cfg.st.boarding <
        (station_load_train_entry cfg.st count).people_to_sit := hg
    rw [e2] at hg2
    split at hg2 <;> omega

/-- Claim C7, witness: the spec's scenario, `station_load_train(4)` with
zero passengers waiting, sets `people_to_sit = 0`. -/
theorem C7_no_passengers_w :
    (station_load_train_entry initConfig.st 4).people_to_sit = 0 :=
  (C7_no_passengers initConfig 4 Relation.ReflTransGen.refl rfl
    (by decide)).1

/-- Claim C8.  A `station_wait_for_train` call first increments `waiting`
(step `enterBlock` suspends exactly when `seats_available = 0`); a passenger
that proceeds past the wait loop (step `wakeClaim`, or the no-suspend path
`enterClaim`) does so only with `seats_available ≠ 0` and decrements both
`seats_available` and `waiting` by exactly one, so a completed call claims
one seat and changes `waiting` by a net of zero (`enterClaim` shows the
whole call's effect: `waiting` unchanged, one seat claimed). -/
theorem C8_wait_for_train_effect (a b : Config) :
    (Step Label.enterBlock a b →
       wait_loop_guard a.st ∧
       b.st.waiting = a.st.waiting + 1 ∧
       b.st.seats_available = a.st.seats_available) ∧
    (Step Label.wakeClaim a b →
       a.st.seats_available ≠ 0 ∧
       b.st.waiting = a.st.waiting - 1 ∧
       b.st.seats_available = a.st.seats_available - 1) ∧
    (Step Label.enterClaim a b →
       a.st.seats_available ≠ 0 ∧
       b.st.waiting = a.st.waiting ∧
       b.st.seats_available = a.st.seats_available - 1) := by
  refine ⟨?_, ?_, ?_⟩ <;> intro hs
  · cases hs with
    | enterBlock _ h => exact ⟨h, rfl, rfl⟩
  · cases hs with
    | wakeClaim _ h hb => exact ⟨h, rfl, rfl⟩
  · cases hs with
    | enterClaim _ h =>
        refine ⟨h, ?_, rfl⟩
        show a.st.waiting + 1 - 1 = a.st.waiting
        omega

/-- Claim C8, witness, on trace 1: entering passenger increments `waiting`
(step `t0 → t1`), and a woken passenger decrements both `waiting` and
`seats_available` by one (step `t2 → t3`). -/
theorem C8_wait_for_train_effect_w :
    t1.st.waiting = initConfig.st.waiting + 1 ∧
    (t3.st.waiting = t2.st.waiting - 1 ∧
     t3.st.seats_available = t2.st.seats_available - 1) :=
  ⟨((C8_wait_for_train_effect initConfig t1).1 step_t01).2.1,
   ((C8_wait_for_train_effect t2 t3).2.1 step_t23).2⟩

/-- Claim C9.  `station_on_board` increments `boarding` by exactly one and
issues the all-boarded broadcast if and only if the incremented `boarding`
equals `people_to_sit`; a call pushing `boarding` strictly past
`people_to_sit` issues no broadcast. -/
theorem C9_on_board_broadcast (st : Station) :
    (station_on_board st).1.boarding = st.boarding + 1 ∧
    ((station_on_board st).2 = true ↔
       st.boarding + 1 = st.people_to_sit) ∧
    (st.people_to_sit < st.boarding + 1 →
       (station_on_board st).2 = false) := by
  refine ⟨rfl, ?_, ?_⟩
  · show decide (st.boarding + 1 = st.people_to_sit) = true ↔
        st.boarding + 1 = st.people_to_sit
    exact ⟨of_decide_eq_true, decide_eq_true⟩
  · intro hlt
    show decide (st.boarding + 1 = st.people_to_sit) = false
    exact decide_eq_false (by omega)

/-- Claim C9, witness: a `station_on_board` call from `boarding = 5`,
`people_to_sit = 0` pushes `boarding` strictly past the quota and issues no
broadcast. -/
theorem C9_on_board_broadcast_w :
    (station_on_board ⟨0, 0, 0, 5⟩).2 = false :=
  (C9_on_board_broadcast ⟨0, 0, 0, 5⟩).2.2 (by decide)

/-- Claim C10.  `station_on_board` leaves `waiting`, `seats_available` and
`people_to_sit` unchanged between its entry and its return: `boarding` is
the only counter it modifies. -/
theorem C10_on_board_frame (st : Station) :
    (station_on_board st).1.waiting = st.waiting ∧
    (station_on_board st).1.seats_available = st.seats_available ∧
    (station_on_board st).1.people_to_sit = st.people_to_sit :=
  ⟨rfl, rfl, rfl⟩
